import Mathlib

/-!
# Verification of the vibematch-gallery local persistence layer

Shallow embedding of `src/services/storageService.ts`: the IndexedDB-backed
storage service for galleries and gallery images, together with proofs of the
consistency contract stated in the specification.

Modelling conventions:
* An IndexedDB object store (keyPath `id`) is modelled as a list of records in
  which `put` inserts or fully overwrites by key, `get` is `List.find?` on the
  key, and `delete` filters the key out.
* An index cursor walk (`openCursor`) yields records ordered by
  (index key, primary key); `'prev'` direction reverses that order.  We model
  a cursor read as a `mergeSort` of the matching records with the
  corresponding comparator, which is order-canonical because primary keys
  break ties.
* An IndexedDB transaction either commits (all queued effects apply) or
  aborts (none apply).  `runTx` takes the commit outcome as an explicit
  boolean; the functions that the source wraps in a single multi-request
  transaction (`deleteGallery`, `saveImages`) are expressed as
  `runTx commit body`.
* `Date.now()` values are passed in explicitly as `Nat` arguments; the
  caller's clock is assumed monotone where a theorem needs it.
* JS strings produced by the id generator are modelled at the `List Char`
  level so that slicing (`substr`) is structural.
-/

namespace VibeMatch

/-- Type `ImageDescription` from `src/types.ts`: the structured description blob
produced by the analysis collaborator; the storage layer treats it opaquely. -/
structure ImageDescription where
  subject : String
  colors : List String
  style : String
  mood : String
  lighting : String
  visualElements : List String
deriving Repr, DecidableEq

/-- Type `GalleryImage` from `src/types.ts`. `timestamp` is a `Date.now()` value. -/
structure GalleryImage where
  id : String
  galleryId : String
  url : String
  base64 : String
  mimeType : String
  description : ImageDescription
  timestamp : Nat
deriving Repr, DecidableEq

/-- Type `Gallery` from `src/types.ts`. `createdAt`/`updatedAt` are `Date.now()`
values. -/
structure Gallery where
  id : String
  name : String
  description : Option String
  coverImageId : Option String
  createdAt : Nat
  updatedAt : Nat
deriving Repr, DecidableEq

/-- The durable state of the database `vibematch-gallery` (schema version 2):
the `galleries` object store and the `images` object store, both keyed by
`id`. -/
structure DB where
  galleries : List Gallery
  images : List GalleryImage
deriving Repr, DecidableEq

/-! ## Object-store primitives (the embedded database gateway) -/

/-- Operation `store.put(r)` on a store with keyPath `key`: insert or fully overwrite
the record whose key equals `key r`. -/
def putRecord (key : α → String) (r : α) : List α → List α
  | [] => [r]
  | x :: xs => if key x = key r then r :: xs else x :: putRecord key r xs

/-- Operation `store.get(k)`: the record with key `k`, or `none` when absent. -/
def getRecord (key : α → String) (k : String) (xs : List α) : Option α :=
  xs.find? (fun x => key x == k)

/-- Operation `store.delete(k)`: remove the record with key `k`; absent keys are
no-ops. -/
def deleteRecord (key : α → String) (k : String) (xs : List α) : List α :=
  xs.filter (fun x => key x != k)

/-- An IndexedDB transaction: on commit all queued effects apply, on abort
none do and the prior state is preserved. -/
def runTx (commit : Bool) (body : DB → DB) (db : DB) : DB :=
  cond commit (body db) db

/-! ## Identifier generation

`createGallery` generates ids with `Math.random().toString(36).substr(2, 9)`.
`Math.random()` returns a value in `[0, 1)`; `toString(36)` prints `"0"` for
zero and otherwise `"0."` followed by the base-36 digits of the fraction with
no trailing zeros.  We model the random value by that digit list. -/

/-- Base-36 digit characters: `0`-`9` then `a`-`z`. -/
def digitChar36 (d : Fin 36) : Char :=
  if d.val < 10 then Char.ofNat (48 + d.val) else Char.ofNat (87 + d.val)

/-- Model of `x.toString(36)` for `x ∈ [0,1)` whose fractional base-36
expansion is `ds` (no trailing zeros): `"0"` when `x = 0`, else
`"0." ++ digits`. -/
def toString36 (ds : List (Fin 36)) : List Char :=
  if ds.isEmpty then ['0'] else '0' :: '.' :: ds.map digitChar36

/-- Model of `Math.random().toString(36).substr(2, 9)`: drop the leading
`"0."` and keep at most 9 characters. -/
def genId (ds : List (Fin 36)) : List Char :=
  ((toString36 ds).drop 2).take 9

/-- A base-36 alphanumeric character: a decimal digit or lowercase letter. -/
def isAlnum36 (c : Char) : Bool :=
  ('0' ≤ c && c ≤ '9') || ('a' ≤ c && c ≤ 'z')

/-! ## Gallery functions -/

/-- The `Gallery` record constructed by `createGallery`: fresh id from the
random digits `ds`, `createdAt`/`updatedAt` from the two successive
`Date.now()` calls `t1` and `t2`. -/
def mkGallery (name : String) (descr : Option String) (ds : List (Fin 36))
    (t1 t2 : Nat) : Gallery :=
  { id := String.mk (genId ds), name := name, description := descr,
    coverImageId := none, createdAt := t1, updatedAt := t2 }

/-- Function `createGallery(name, description?)`: build the gallery record and `put`
it into the galleries store; the record is returned to the caller. -/
def createGallery (name : String) (descr : Option String) (ds : List (Fin 36))
    (t1 t2 : Nat) (db : DB) : Gallery × DB :=
  let g := mkGallery name descr ds t1 t2
  (g, { db with galleries := putRecord Gallery.id g db.galleries })

/-- Function `updateGallery(gallery)`: stamp `updatedAt = Date.now()` (overwriting the
caller-supplied value) and `put` the full record.  The stamped record is the
first component (the source mutates the caller's object in place). -/
def updateGallery (g : Gallery) (now : Nat) (db : DB) : Gallery × DB :=
  let g' := { g with updatedAt := now }
  (g', { db with galleries := putRecord Gallery.id g' db.galleries })

/-- Cursor comparator for `index('createdAt').openCursor(null, 'prev')` on
the galleries store: descending by `createdAt`, ties descending by primary
key `id`. -/
def galleryCursorPrevLE (a b : Gallery) : Bool :=
  decide (b.createdAt < a.createdAt) ||
    (b.createdAt == a.createdAt && decide (b.id ≤ a.id))

/-- Function `loadAllGalleries()`: walk the `createdAt` index backwards, collecting
every gallery (newest created first). -/
def loadAllGalleries (db : DB) : List Gallery :=
  db.galleries.mergeSort galleryCursorPrevLE

/-- Function `loadGallery(galleryId)`: a `store.get`, resolving `null` when absent. -/
def loadGallery (galleryId : String) (db : DB) : Option Gallery :=
  getRecord Gallery.id galleryId db.galleries

/-- Function `loadGallery` together with its transaction outcome: the promise rejects
exactly when the underlying read transaction errors, and otherwise resolves
with the (possibly `none`) lookup result. -/
def loadGalleryTx (galleryId : String) (txOk : Bool) (db : DB) :
    Except String (Option Gallery) :=
  if txOk then Except.ok (loadGallery galleryId db)
  else Except.error "ReadRejected"

/-- The effects queued by `deleteGallery`'s single readwrite transaction over
both stores: delete the gallery record, and delete every image whose
`galleryId` index key matches (the cursor loop). -/
def deleteGalleryBody (galleryId : String) (db : DB) : DB :=
  { galleries := deleteRecord Gallery.id galleryId db.galleries,
    images := db.images.filter (fun img => img.galleryId != galleryId) }

/-- Function `deleteGallery(galleryId)`: the cascading delete, atomic because both
stores are touched inside one transaction that resolves on `oncomplete`. -/
def deleteGallery (galleryId : String) (commit : Bool) (db : DB) : DB :=
  runTx commit (deleteGalleryBody galleryId) db

/-! ## Image functions -/

/-- Operation `store.get` on the images store (the gateway's get-by-id primitive). -/
def getImageById (imageId : String) (db : DB) : Option GalleryImage :=
  getRecord GalleryImage.id imageId db.images

/-- Function `saveImage(image)`: single `put` into the images store. -/
def saveImage (img : GalleryImage) (db : DB) : DB :=
  { db with images := putRecord GalleryImage.id img db.images }

/-- The effects queued by `saveImages`' single transaction: one `put` per
image, in list order. -/
def saveImagesBody (imgs : List GalleryImage) (db : DB) : DB :=
  imgs.foldl (fun acc img => saveImage img acc) db

/-- Function `saveImages(images)`: batch put in a single transaction resolving on
`oncomplete` — all puts apply on commit, none on abort. -/
def saveImages (imgs : List GalleryImage) (commit : Bool) (db : DB) : DB :=
  runTx commit (saveImagesBody imgs) db

/-- Cursor comparator for `index('galleryId').openCursor(only(g))`: within a
single index key value the cursor yields records ascending by primary key. -/
def imageCursorByIdLE (a b : GalleryImage) : Bool :=
  decide (a.id ≤ b.id)

/-- The comparator of `images.sort((a, b) => b.timestamp - a.timestamp)`:
newest first; the JS sort is stable, so cursor order breaks ties. -/
def byTimestampDesc (a b : GalleryImage) : Bool :=
  decide (b.timestamp ≤ a.timestamp)

/-- Function `loadGalleryImages(galleryId)`: collect the gallery's images via the
`galleryId` index cursor, then sort by timestamp descending (stable). -/
def loadGalleryImages (galleryId : String) (db : DB) : List GalleryImage :=
  let cursor :=
    (db.images.filter (fun img => img.galleryId == galleryId)).mergeSort
      imageCursorByIdLE
  cursor.mergeSort byTimestampDesc

/-- Cursor comparator for `index('timestamp').openCursor(null, 'prev')`:
descending by timestamp, ties descending by primary key. -/
def imageCursorTsPrevLE (a b : GalleryImage) : Bool :=
  decide (b.timestamp < a.timestamp) ||
    (b.timestamp == a.timestamp && decide (b.id ≤ a.id))

/-- Function `loadAllImages()` (deprecated in the source): walk the `timestamp` index
backwards over every image. -/
def loadAllImages (db : DB) : List GalleryImage :=
  db.images.mergeSort imageCursorTsPrevLE

/-- Function `deleteImage(imageId)`: single delete from the images store. -/
def deleteImage (imageId : String) (db : DB) : DB :=
  { db with images := deleteRecord GalleryImage.id imageId db.images }

/-- Function `clearAllImages()`: the `store.clear()` call on the images store. -/
def clearAllImages (db : DB) : DB :=
  { db with images := [] }

/-- Function `getGalleryImageCount(galleryId)`: `index('galleryId').count(only(g))` —
the number of image records with that index key, without materializing. -/
def getGalleryImageCount (galleryId : String) (db : DB) : Nat :=
  (db.images.filter (fun img => img.galleryId == galleryId)).length

/-- Function `getGalleryCoverImage(galleryId)`:
`images.length > 0 ? images[0] : null` over the `loadGalleryImages`
result — derived on every call, not a stored field. -/
def getGalleryCoverImage (galleryId : String) (db : DB) : Option GalleryImage :=
  let images := loadGalleryImages galleryId db
  if 0 < images.length then images[0]? else none

/-! ## Store-primitive lemmas -/

theorem getRecord_putRecord_same (key : α → String) (r : α) (xs : List α) :
    getRecord key (key r) (putRecord key r xs) = some r := by
  induction xs with
  | nil => simp [getRecord, putRecord]
  | cons x xs ih =>
    by_cases h : key x = key r
    · simp [getRecord, putRecord, h]
    · rw [putRecord, if_neg h, getRecord,
        List.find?_cons_of_neg _ (by simp [h])]
      exact ih

theorem getRecord_putRecord_ne (key : α → String) (r : α) (k : String)
    (xs : List α) (h : key r ≠ k) :
    getRecord key k (putRecord key r xs) = getRecord key k xs := by
  induction xs with
  | nil => simp [getRecord, putRecord, h]
  | cons x xs ih =>
    by_cases hx : key x = key r
    · rw [putRecord, if_pos hx, getRecord,
        List.find?_cons_of_neg _ (by simp [h]), getRecord,
        List.find?_cons_of_neg _ (by simp [hx, h])]
    · rw [putRecord, if_neg hx]
      by_cases hk : key x = k
      · rw [getRecord, List.find?_cons_of_pos _ (by simp [hk]), getRecord,
          List.find?_cons_of_pos _ (by simp [hk])]
      · rw [getRecord, List.find?_cons_of_neg _ (by simp [hk]), getRecord,
          List.find?_cons_of_neg _ (by simp [hk])]
        exact ih

theorem find?_filter_of_imp (p q : α → Bool) (xs : List α)
    (h : ∀ x ∈ xs, p x = true → q x = true) :
    (xs.filter q).find? p = xs.find? p := by
  induction xs with
  | nil => rfl
  | cons x xs ih =>
    have ih' := ih (fun y hy => h y (List.mem_cons_of_mem x hy))
    by_cases hq : q x = true
    · rw [List.filter_cons_of_pos hq]
      cases hp : p x
      · rw [List.find?_cons_of_neg _ (by simp [hp]),
          List.find?_cons_of_neg _ (by simp [hp])]
        exact ih'
      · rw [List.find?_cons_of_pos _ hp, List.find?_cons_of_pos _ hp]
    · have hp : p x = false := by
        cases hpx : p x
        · rfl
        · exact absurd (h x (List.mem_cons_self x xs) hpx) hq
      rw [List.filter_cons_of_neg (by simp [hq]),
        List.find?_cons_of_neg _ (by simp [hp])]
      exact ih'

theorem getRecord_eq_some_of_mem_nodup (key : α → String) (r : α)
    (xs : List α) (hmem : r ∈ xs) (hnd : (xs.map key).Nodup) :
    getRecord key (key r) xs = some r := by
  induction xs with
  | nil => cases hmem
  | cons x xs ih =>
    rcases List.mem_cons.mp hmem with rfl | hmem'
    · simp [getRecord, List.find?_cons]
    · simp only [List.map_cons, List.nodup_cons] at hnd
      have hne : key x ≠ key r := by
        intro he
        exact hnd.1 (he ▸ List.mem_map_of_mem key hmem')
      rw [getRecord, List.find?_cons_of_neg _ (by simp [hne])]
      exact ih hmem' hnd.2

theorem getRecord_deleteRecord_same (key : α → String) (k : String)
    (xs : List α) :
    getRecord key k (deleteRecord key k xs) = none := by
  rw [getRecord, List.find?_eq_none]
  intro x hx
  have := List.of_mem_filter hx
  simpa using this

theorem byTimestampDesc_trans (a b c : GalleryImage)
    (h1 : byTimestampDesc a b) (h2 : byTimestampDesc b c) :
    byTimestampDesc a c := by
  simp only [byTimestampDesc, decide_eq_true_eq] at *
  omega

theorem byTimestampDesc_total (a b : GalleryImage) :
    byTimestampDesc a b || byTimestampDesc b a := by
  simp only [byTimestampDesc, Bool.or_eq_true, decide_eq_true_eq]
  omega

theorem galleryCursorPrevLE_trans (a b c : Gallery)
    (h1 : galleryCursorPrevLE a b) (h2 : galleryCursorPrevLE b c) :
    galleryCursorPrevLE a c := by
  simp only [galleryCursorPrevLE, Bool.or_eq_true, Bool.and_eq_true,
    decide_eq_true_eq, beq_iff_eq] at *
  rcases h1 with h1 | ⟨h1e, h1s⟩ <;> rcases h2 with h2 | ⟨h2e, h2s⟩
  · exact Or.inl (by omega)
  · exact Or.inl (by omega)
  · exact Or.inl (by omega)
  · exact Or.inr ⟨by omega, le_trans h2s h1s⟩

theorem galleryCursorPrevLE_total (a b : Gallery) :
    galleryCursorPrevLE a b || galleryCursorPrevLE b a := by
  simp only [galleryCursorPrevLE, Bool.or_eq_true, Bool.and_eq_true,
    decide_eq_true_eq, beq_iff_eq]
  rcases Nat.lt_trichotomy a.createdAt b.createdAt with h | h | h
  · exact Or.inr (Or.inl h)
  · rcases le_total a.id b.id with hs | hs
    · exact Or.inr (Or.inr ⟨h, hs⟩)
    · exact Or.inl (Or.inr ⟨h.symm, hs⟩)
  · exact Or.inl (Or.inl h)

/-! ## Theorems: the specification's consistency contract -/

/-- C1 — Cascade completeness: `deleteGallery G` (one transaction over both
stores) leaves `loadGalleryImages G` empty, removes the gallery record, and
makes a get by id on every formerly-owned image id return not-found; on
abort the prior state is fully preserved (no partial cascade).  The
hypothesis says the store holds no duplicate image ids, which every
reachable state satisfies since `put` overwrites by id. -/
theorem deleteGallery_cascade (G : String) (db : DB)
    (hnd : (db.images.map GalleryImage.id).Nodup) :
    loadGalleryImages G (deleteGallery G true db) = []
      ∧ loadGallery G (deleteGallery G true db) = none
      ∧ (∀ img ∈ db.images, img.galleryId = G →
          getImageById img.id (deleteGallery G true db) = none)
      ∧ deleteGallery G false db = db := by
  refine ⟨?_, ?_, ?_, rfl⟩
  · have hfil : (deleteGallery G true db).images.filter
        (fun img => img.galleryId == G) = [] := by
      rw [List.filter_eq_nil_iff]
      intro a ha
      have hq := List.of_mem_filter ha
      simp only [bne_iff_ne, ne_eq] at hq
      simp [hq]
    simp only [loadGalleryImages, hfil, List.mergeSort_nil]
  · exact getRecord_deleteRecord_same Gallery.id G db.galleries
  · intro img hmem hG
    rw [getImageById, getRecord, List.find?_eq_none]
    intro x hx
    have hxmem : x ∈ db.images := List.mem_of_mem_filter hx
    have hxq := List.of_mem_filter hx
    simp only [bne_iff_ne, ne_eq] at hxq
    simp only [beq_iff_eq]
    intro hid
    exact hxq ((List.inj_on_of_nodup_map hnd hxmem hmem hid) ▸ hG)

/-- C4 — Ordering: for every store state (hence for arbitrarily interleaved
insertion orders), `loadGalleryImages G` is sorted by image creation
timestamp descending and is a permutation of the gallery's stored images,
and `loadAllGalleries` is sorted by `createdAt` descending and is a
permutation of all stored galleries.  Both reads are pure functions of the
store state and break timestamp ties by primary key (stable sort over the
cursor order), so the tie-break order is deterministic within a process
run. -/
theorem load_ordering (G : String) (db : DB) :
    (loadGalleryImages G db).Pairwise (fun a b => b.timestamp ≤ a.timestamp)
      ∧ (loadGalleryImages G db).Perm
          (db.images.filter (fun img => img.galleryId == G))
      ∧ (loadAllGalleries db).Pairwise (fun a b => b.createdAt ≤ a.createdAt)
      ∧ (loadAllGalleries db).Perm db.galleries := by
  refine ⟨?_, ?_, ?_, ?_⟩
  · have h := List.sorted_mergeSort byTimestampDesc_trans byTimestampDesc_total
      ((db.images.filter (fun img => img.galleryId == G)).mergeSort
        imageCursorByIdLE)
    exact h.imp (fun hab => by
      simpa [byTimestampDesc, decide_eq_true_eq] using hab)
  · exact (List.mergeSort_perm _ byTimestampDesc).trans
      (List.mergeSort_perm _ imageCursorByIdLE)
  · have h := List.sorted_mergeSort galleryCursorPrevLE_trans
      galleryCursorPrevLE_total db.galleries
    refine h.imp (fun hab => ?_)
    simp only [galleryCursorPrevLE, Bool.or_eq_true, Bool.and_eq_true,
      decide_eq_true_eq, beq_iff_eq] at hab
    rcases hab with hab | ⟨hab, _⟩ <;> omega
  · exact List.mergeSort_perm db.galleries galleryCursorPrevLE

/-- C3 — Count consistency: for every store state (hence for every reachable
one, so the equality is preserved by every service operation) and every
gallery id `G`, `getGalleryImageCount G` equals the length of
`loadGalleryImages G`. -/
theorem count_consistency (G : String) (db : DB) :
    getGalleryImageCount G db = (loadGalleryImages G db).length := by
  simp [getGalleryImageCount, loadGalleryImages, List.length_mergeSort]

/-- C5 — Cover derivation: `getGalleryCoverImage G` is exactly the head of
the sorted `loadGalleryImages G` result — `some` of the newest image when the
gallery has images, `none` when it has none — for every store state, hence
after every mutation sequence. -/
theorem cover_is_head (G : String) (db : DB) :
    getGalleryCoverImage G db = (loadGalleryImages G db).head? := by
  unfold getGalleryCoverImage
  cases h : loadGalleryImages G db <;> simp [h]

theorem getImageById_saveImagesBody_of_not_mem (imgs : List GalleryImage)
    (db : DB) (i : String) (h : ∀ img ∈ imgs, img.id ≠ i) :
    getImageById i (saveImagesBody imgs db) = getImageById i db := by
  induction imgs generalizing db with
  | nil => rfl
  | cons x xs ih =>
    have hx : x.id ≠ i := h x (List.mem_cons_self x xs)
    calc getImageById i (saveImagesBody (x :: xs) db)
        = getImageById i (saveImagesBody xs (saveImage x db)) := rfl
      _ = getImageById i (saveImage x db) :=
          ih (saveImage x db) (fun y hy => h y (List.mem_cons_of_mem x hy))
      _ = getImageById i db :=
          getRecord_putRecord_ne GalleryImage.id x i db.images hx

theorem getImageById_saveImagesBody_of_mem :
    ∀ (imgs : List GalleryImage) (db : DB),
      (imgs.map GalleryImage.id).Nodup → ∀ img ∈ imgs,
        getImageById img.id (saveImagesBody imgs db) = some img
  | [], _, _, _, hmem => by cases hmem
  | x :: xs, db, hnd, img, hmem => by
    simp only [List.map_cons, List.nodup_cons] at hnd
    rcases List.mem_cons.mp hmem with rfl | hmem'
    · calc getImageById img.id (saveImagesBody (img :: xs) db)
          = getImageById img.id (saveImagesBody xs (saveImage img db)) := rfl
        _ = getImageById img.id (saveImage img db) :=
            getImageById_saveImagesBody_of_not_mem xs _ img.id
              (fun y hy hid => hnd.1 (hid ▸ List.mem_map_of_mem _ hy))
        _ = some img :=
            getRecord_putRecord_same GalleryImage.id img db.images
    · exact getImageById_saveImagesBody_of_mem xs (saveImage x db)
        hnd.2 img hmem'

/-- C2 — Atomic batch put: when the single transaction wrapping the batch
commits, every record of the batch is visible afterward (the hypothesis
rules out a batch that overwrites its own records via duplicate ids); when
it aborts, the store is unchanged — never a partial subset. -/
theorem saveImages_atomic (imgs : List GalleryImage) (db : DB)
    (hnd : (imgs.map GalleryImage.id).Nodup) :
    (∀ img ∈ imgs, getImageById img.id (saveImages imgs true db) = some img)
      ∧ saveImages imgs false db = db := by
  refine ⟨?_, rfl⟩
  intro img hmem
  exact getImageById_saveImagesBody_of_mem imgs db hnd img hmem

/-- C6 — Update stamps: `updateGallery` stamps `updatedAt` with the current
time (overwriting any caller-supplied value) and persists the full stamped
record; under a monotone clock (`createdAt ≤ t1 ≤ t2`) successive updates
have non-decreasing `updatedAt`, each `≥ createdAt`, and `createGallery`
itself establishes `createdAt ≤ updatedAt` from its two successive clock
reads. -/
theorem updateGallery_stamps (g : Gallery) (t1 t2 : Nat) (db1 db2 : DB)
    (h12 : t1 ≤ t2) (hcb : g.createdAt ≤ t1) :
    (updateGallery g t1 db1).1.updatedAt = t1
      ∧ loadGallery g.id (updateGallery g t1 db1).2
          = some { g with updatedAt := t1 }
      ∧ (updateGallery g t1 db1).1.updatedAt
          ≤ (updateGallery (updateGallery g t1 db1).1 t2 db2).1.updatedAt
      ∧ g.createdAt ≤ (updateGallery g t1 db1).1.updatedAt
      ∧ (∀ name descr ds tc tu db, tc ≤ tu →
          (createGallery name descr ds tc tu db).1.createdAt
            ≤ (createGallery name descr ds tc tu db).1.updatedAt) := by
  refine ⟨rfl, ?_, h12, hcb, fun name descr ds tc tu db h => h⟩
  exact getRecord_putRecord_same Gallery.id { g with updatedAt := t1 }
    db1.galleries

/-- C9 — Frame property of the cascading delete: `deleteGallery G` leaves
every gallery with a different id present and readable unchanged, and every
image owned by a different gallery present and readable unchanged (the
no-duplicate-image-ids hypothesis holds in every reachable state). -/
theorem deleteGallery_frame (G : String) (db : DB)
    (hnd : (db.images.map GalleryImage.id).Nodup) :
    (∀ h ∈ db.galleries, h.id ≠ G →
        h ∈ (deleteGallery G true db).galleries
          ∧ loadGallery h.id (deleteGallery G true db)
              = loadGallery h.id db)
      ∧ (∀ img ∈ db.images, img.galleryId ≠ G →
          img ∈ (deleteGallery G true db).images
            ∧ getImageById img.id (deleteGallery G true db) = some img) := by
  constructor
  · intro h hmem hne
    refine ⟨List.mem_filter.mpr ⟨hmem, by simp [hne]⟩, ?_⟩
    exact find?_filter_of_imp _ _ db.galleries (fun x _ hp => by
      simp only [beq_iff_eq] at hp
      simp [hp, hne])
  · intro img hmem hne
    refine ⟨List.mem_filter.mpr ⟨hmem, by simp [hne]⟩, ?_⟩
    have hpres : getImageById img.id (deleteGallery G true db)
        = getImageById img.id db := by
      refine find?_filter_of_imp _ _ db.images (fun x hx hp => ?_)
      simp only [beq_iff_eq] at hp
      have : x = img := List.inj_on_of_nodup_map hnd hx hmem hp
      simp [this, hne]
    rw [hpres]
    exact getRecord_eq_some_of_mem_nodup GalleryImage.id img db.images
      hmem hnd

theorem isAlnum36_digitChar36 : ∀ d : Fin 36, isAlnum36 (digitChar36 d) = true := by
  decide

/-- C7 counterexample — the claim "at least 9 characters" fails on the code:
`Math.random()` can return `0.5`, whose base-36 string is `"0.i"`, so
`substr(2, 9)` yields the 1-character id `"i"`.  Shown on a concrete
`createGallery` call. -/
theorem genId_counterexample :
    ¬ 9 ≤ ((createGallery "Trip" none [(18 : Fin 36)] 5 5
        ⟨[], []⟩).1.id).length := by
  decide

/-- C7, amended — every identifier generated at record creation is a random
base-36 alphanumeric token of AT MOST 9 characters — exactly 9 only when the
random value's base-36 fractional expansion has at least 9 digits (trailing
zeros are never printed) — generated independently of the store. -/
theorem genId_spec (ds : List (Fin 36)) (name : String)
    (descr : Option String) (t1 t2 : Nat) (db db' : DB) :
    (createGallery name descr ds t1 t2 db).1.id = String.mk (genId ds)
      ∧ (genId ds).length = min 9 ds.length
      ∧ (genId ds).all isAlnum36 = true
      ∧ (createGallery name descr ds t1 t2 db).1.id
          = (createGallery name descr ds t1 t2 db').1.id := by
  refine ⟨rfl, ?_, ?_, rfl⟩
  · rw [genId, toString36]
    by_cases h : ds.isEmpty
    · rw [if_pos h]
      rw [List.isEmpty_iff] at h
      subst h
      rfl
    · rw [if_neg h]
      simp [List.length_take]
  · rw [List.all_eq_true]
    intro c hc
    rw [genId, toString36] at hc
    by_cases h : ds.isEmpty
    · rw [if_pos h] at hc
      simp at hc
    · rw [if_neg h] at hc
      have hc' : c ∈ ds.map digitChar36 := List.mem_of_mem_take hc
      rcases List.mem_map.mp hc' with ⟨d, _, rfl⟩
      exact isAlnum36_digitChar36 d

/-- C8 — Get by id on an absent gallery id resolves with an explicit `none`
result rather than rejecting; the promise rejects exactly when the
underlying read transaction itself errors. -/
theorem loadGallery_absent (i : String) (db : DB)
    (habs : db.galleries.all (fun g => g.id != i) = true) :
    loadGalleryTx i true db = Except.ok none
      ∧ loadGalleryTx i false db = Except.error "ReadRejected" := by
  refine ⟨?_, rfl⟩
  have hnone : loadGallery i db = none := by
    rw [loadGallery, getRecord, List.find?_eq_none]
    intro g hg
    have := List.all_eq_true.mp habs g hg
    simpa using this
  simp [loadGalleryTx, hnone]

/-- C10 — `clearAllImages` empties the entire images collection: afterwards
`loadGalleryImages g` is empty and `getGalleryImageCount g` is `0` for every
gallery id `g`, while the galleries collection is untouched. -/
theorem clearAllImages_spec (g : String) (db : DB) :
    loadGalleryImages g (clearAllImages db) = []
      ∧ getGalleryImageCount g (clearAllImages db) = 0
      ∧ (clearAllImages db).galleries = db.galleries := by
  refine ⟨?_, ?_, rfl⟩ <;>
    simp [loadGalleryImages, getGalleryImageCount, clearAllImages]

/-! ## Concrete witness states (the spec's "Trip" scenario, §8) -/

def descrA : ImageDescription :=
  { subject := "sunset", colors := ["orange"], style := "photo",
    mood := "calm", lighting := "golden", visualElements := ["sky"] }

def imgA : GalleryImage :=
  { id := "i1", galleryId := "g1", url := "u1", base64 := "b1",
    mimeType := "image/png", description := descrA, timestamp := 10 }

def imgB : GalleryImage :=
  { id := "i2", galleryId := "g1", url := "u2", base64 := "b2",
    mimeType := "image/png", description := descrA, timestamp := 20 }

def imgC : GalleryImage :=
  { id := "i3", galleryId := "g2", url := "u3", base64 := "b3",
    mimeType := "image/jpeg", description := descrA, timestamp := 15 }

def galA : Gallery :=
  { id := "g1", name := "Trip", description := none, coverImageId := none,
    createdAt := 1, updatedAt := 1 }

def galB : Gallery :=
  { id := "g2", name := "Home", description := some "d", coverImageId := none,
    createdAt := 2, updatedAt := 2 }

def dbExample : DB :=
  { galleries := [galA, galB], images := [imgA, imgB, imgC] }

/-- C1 witness: the cascade theorem applied to the concrete two-gallery
store, with every hypothesis discharged by evaluation. -/
theorem deleteGallery_cascade_witness :
    loadGalleryImages "g1" (deleteGallery "g1" true dbExample) = []
      ∧ loadGallery "g1" (deleteGallery "g1" true dbExample) = none
      ∧ getImageById "i1" (deleteGallery "g1" true dbExample) = none
      ∧ deleteGallery "g1" false dbExample = dbExample := by
  have h := deleteGallery_cascade "g1" dbExample (by decide)
  exact ⟨h.1, h.2.1, h.2.2.1 imgA (by decide) rfl, h.2.2.2⟩

/-- C2 witness: the batch-put theorem applied to a concrete two-image batch
over the empty store. -/
theorem saveImages_atomic_witness :
    getImageById "i1" (saveImages [imgA, imgB] true ⟨[], []⟩) = some imgA
      ∧ getImageById "i2" (saveImages [imgA, imgB] true ⟨[], []⟩) = some imgB
      ∧ saveImages [imgA, imgB] false ⟨[], []⟩ = (⟨[], []⟩ : DB) := by
  have h := saveImages_atomic [imgA, imgB] ⟨[], []⟩ (by decide)
  exact ⟨h.1 imgA (by decide), h.1 imgB (by decide), h.2⟩

/-- C6 witness: the stamping theorem applied to gallery `galA` updated at
time 3 and then at time 4. -/
theorem updateGallery_stamps_witness :
    (updateGallery galA 3 dbExample).1.updatedAt = 3
      ∧ loadGallery "g1" (updateGallery galA 3 dbExample).2
          = some { galA with updatedAt := 3 }
      ∧ (updateGallery galA 3 dbExample).1.updatedAt
          ≤ (updateGallery (updateGallery galA 3 dbExample).1 4
              dbExample).1.updatedAt
      ∧ galA.createdAt ≤ (updateGallery galA 3 dbExample).1.updatedAt
      ∧ (createGallery "X" none [] 1 2 dbExample).1.createdAt
          ≤ (createGallery "X" none [] 1 2 dbExample).1.updatedAt := by
  have h := updateGallery_stamps galA 3 4 dbExample dbExample
    (by decide) (by decide)
  exact ⟨h.1, h.2.1, h.2.2.1, h.2.2.2.1,
    h.2.2.2.2 "X" none [] 1 2 dbExample (by decide)⟩

/-- C8 witness: looking up the absent id `"zz"` in the concrete store. -/
theorem loadGallery_absent_witness :
    loadGalleryTx "zz" true dbExample = Except.ok none
      ∧ loadGalleryTx "zz" false dbExample
          = Except.error "ReadRejected" := by
  have h := loadGallery_absent "zz" dbExample (by decide)
  exact ⟨h.1, h.2⟩

/-- C9 witness: after deleting gallery `"g1"`, gallery `"g2"` and its image
`"i3"` are untouched in the concrete store. -/
theorem deleteGallery_frame_witness :
    galB ∈ (deleteGallery "g1" true dbExample).galleries
      ∧ loadGallery "g2" (deleteGallery "g1" true dbExample)
          = loadGallery "g2" dbExample
      ∧ imgC ∈ (deleteGallery "g1" true dbExample).images
      ∧ getImageById "i3" (deleteGallery "g1" true dbExample) = some imgC := by
  have h := deleteGallery_frame "g1" dbExample (by decide)
  have h1 := h.1 galB (by decide) (by decide)
  have h2 := h.2 imgC (by decide) (by decide)
  exact ⟨h1.1, h1.2, h2.1, h2.2⟩

end VibeMatch
